import Mathlib

/-!
# Verification of the cargo-guppy core against its specification

Shallow embedding of the core data model and operations of the repository:

* `target-spec/src/triple.rs` — the `Triple` type, its two-path parser
  (builtin table lookup with grammar fallback) and its string-based identity.
* `src/graph.rs` — `PackageGraph::new`, construction of the package graph
  from resolved `cargo metadata` output.
* the `hakari` feature-unification builder (configuration, omitted-package
  bookkeeping and summary round-trip), modelled from the specification where
  its implementation is outside the embedded sources.

External crates (`cfg-expr`'s builtin target table, `target-lexicon`'s triple
grammar) are modelled as explicit parameters: a finite table of `TargetInfo`
records looked up by exact triple string, and an arbitrary grammar-parsing
function `String → Option LexiconTriple`.
-/

set_option autoImplicit false

namespace Guppy

/-! ## Triple (target-spec/src/triple.rs) -/

/-- `cfg_expr::targets::TargetInfo`: one entry of the static builtin target
table. Only the `triple` string participates in identity; the remaining
attribute fields of the external crate are not consulted by the embedded
code. -/
structure TargetInfo where
  triple : String
  deriving DecidableEq, Repr

/-- `target_lexicon::Triple`: the grammar-parsed components of a target
triple. The embedded code never inspects the components, only stores them. -/
structure LexiconTriple where
  architecture : String
  vendor : String
  operating_system : String
  environment : String
  binary_format : String
  deriving DecidableEq, Repr

/-- `TripleParseError`: carries the offending triple string. -/
structure TripleParseError where
  triple_str : String
  deriving DecidableEq, Repr

/-- `cfg_expr::targets::get_builtin_target_by_triple`: exact-match lookup of a
triple string in the static table (the external crate uses a binary search on
the `triple` field; on a hit the returned entry's `triple` equals the key). -/
def get_builtin_target_by_triple (table : List TargetInfo) (s : String) :
    Option TargetInfo :=
  table.find? (fun ti => ti.triple == s)

/-- `TripleInner`: builtin representation preferred, lexicon fallback. -/
inductive TripleInner where
  | Builtin (target_info : TargetInfo)
  | Lexicon (triple_str : String) (lexicon_triple : LexiconTriple)
  deriving DecidableEq, Repr

/-- `TripleInner::new`: first try the builtin table, then the lexicon
grammar, and fail only when both miss. -/
def TripleInner.new (table : List TargetInfo)
    (lex : String → Option LexiconTriple) (triple_str : String) :
    Except TripleParseError TripleInner :=
  match get_builtin_target_by_triple table triple_str with
  | some target_info => .ok (.Builtin target_info)
  | none =>
    match lex triple_str with
    | some lexicon_triple => .ok (.Lexicon triple_str lexicon_triple)
    | none => .error ⟨triple_str⟩

/-- `TripleInner::from_borrowed_str`: identical logic to `new`; the borrowed
vs owned `Cow` distinction has no observable counterpart here. -/
def TripleInner.from_borrowed_str (table : List TargetInfo)
    (lex : String → Option LexiconTriple) (triple_str : String) :
    Except TripleParseError TripleInner :=
  match get_builtin_target_by_triple table triple_str with
  | some target_info => .ok (.Builtin target_info)
  | none =>
    match lex triple_str with
    | some lexicon_triple => .ok (.Lexicon triple_str lexicon_triple)
    | none => .error ⟨triple_str⟩

/-- `TripleInner::as_str`. -/
def TripleInner.as_str : TripleInner → String
  | .Builtin target_info => target_info.triple
  | .Lexicon triple_str _ => triple_str

/-- `Triple`: public wrapper around `TripleInner`. -/
structure Triple where
  inner : TripleInner
  deriving DecidableEq, Repr

/-- `Triple::new`. -/
def Triple.new (table : List TargetInfo) (lex : String → Option LexiconTriple)
    (triple_str : String) : Except TripleParseError Triple :=
  (TripleInner.new table lex triple_str).map Triple.mk

/-- `Triple::from_str` (the `FromStr` impl). -/
def Triple.from_str (table : List TargetInfo)
    (lex : String → Option LexiconTriple) (triple_str : String) :
    Except TripleParseError Triple :=
  (TripleInner.from_borrowed_str table lex triple_str).map Triple.mk

/-- `Triple::as_str`. -/
def Triple.as_str (t : Triple) : String :=
  t.inner.as_str

/-- The `PartialEq` impl for `Triple`: string comparison of `as_str`. -/
def Triple.beq (a b : Triple) : Bool :=
  a.as_str == b.as_str

/-- The `Ord` impl for `Triple`: lexicographic comparison of `as_str`. -/
def Triple.cmp (a b : Triple) : Ordering :=
  compare a.as_str b.as_str

/-- The `Hash` impl for `Triple`: hashes exactly `as_str`, for any hasher. -/
def Triple.hashWith (h : String → Nat) (t : Triple) : Nat :=
  h t.as_str

/-- Modelled from the spec: `Platform` (target-spec's `platform.rs` is not
among the embedded sources) — a validated target triple plus an optional set
of enabled target-feature flags; `Platform::triple` returns the triple. -/
structure Platform where
  triple : Triple
  target_features : List String

/-- `Triple::eval`: compares `self` against the platform's triple, ignoring
target features and flags. -/
def Triple.eval (t : Triple) (platform : Platform) : Bool :=
  Triple.beq t platform.triple

/-! ## Theorems about Triple -/

/-- Successful parsing returns a triple whose `as_str` is the input string:
the builtin table only hits on an exact `triple`-field match, and the lexicon
fallback stores the input string itself. -/
theorem Triple.as_str_new {table : List TargetInfo}
    {lex : String → Option LexiconTriple} {s : String} {t : Triple}
    (h : Triple.new table lex s = .ok t) : t.as_str = s := by
  unfold Triple.new TripleInner.new at h
  cases htab : get_builtin_target_by_triple table s with
  | some ti =>
    rw [htab] at h
    simp [Except.map] at h
    have hpred := List.find?_some htab
    subst h
    simpa [Triple.as_str, TripleInner.as_str] using of_decide_eq_true hpred
  | none =>
    rw [htab] at h
    cases hlex : lex s with
    | some lt =>
      rw [hlex] at h
      simp [Except.map] at h
      subst h
      rfl
    | none => rw [hlex] at h; simp [Except.map] at h

/-- C7: for all parsed triples (whichever representation each carries),
equality holds exactly when the canonical string forms are equal, ordering is
the lexicographic order of those strings, and equal triples hash identically
under any hasher of the canonical string. -/
theorem c7_triple_identity_is_canonical_string (a b : Triple) :
    (Triple.beq a b = true ↔ a.as_str = b.as_str) ∧
    Triple.cmp a b = compare a.as_str b.as_str ∧
    (∀ h : String → Nat, Triple.beq a b = true →
      Triple.hashWith h a = Triple.hashWith h b) := by
  refine ⟨?_, rfl, ?_⟩
  · simp [Triple.beq]
  · intro h hab
    simp only [Triple.beq, beq_iff_eq] at hab
    simp [Triple.hashWith, hab]

/-- Witness for C7: a builtin-represented triple and a lexicon-represented
triple with the same canonical string are equal and hash identically. -/
theorem c7_witness :
    Triple.hashWith String.length ⟨.Builtin ⟨"a-b-c"⟩⟩ =
      Triple.hashWith String.length ⟨.Lexicon "a-b-c" ⟨"a", "b", "c", "", ""⟩⟩ :=
  (c7_triple_identity_is_canonical_string
    ⟨.Builtin ⟨"a-b-c"⟩⟩ ⟨.Lexicon "a-b-c" ⟨"a", "b", "c", "", ""⟩⟩).2.2
    String.length (by decide)

/-- C8: parsing tries the builtin table first and returns the builtin
representation on a hit; on a miss it falls back to the grammar parser and
returns an owned-string representation; it errors exactly when both fail. -/
theorem c8_parse_table_first_then_grammar (table : List TargetInfo)
    (lex : String → Option LexiconTriple) (s : String) :
    (∀ ti, get_builtin_target_by_triple table s = some ti →
      Triple.new table lex s = .ok ⟨.Builtin ti⟩) ∧
    (get_builtin_target_by_triple table s = none →
      ∀ lt, lex s = some lt → Triple.new table lex s = .ok ⟨.Lexicon s lt⟩) ∧
    ((∃ e, Triple.new table lex s = .error e) ↔
      get_builtin_target_by_triple table s = none ∧ lex s = none) := by
  refine ⟨?_, ?_, ?_⟩
  · intro ti hti
    simp [Triple.new, TripleInner.new, hti, Except.map]
  · intro hnone lt hlt
    simp [Triple.new, TripleInner.new, hnone, hlt, Except.map]
  · constructor
    · rintro ⟨e, he⟩
      unfold Triple.new TripleInner.new at he
      cases htab : get_builtin_target_by_triple table s with
      | some ti => rw [htab] at he; simp [Except.map] at he
      | none =>
        rw [htab] at he
        cases hlex : lex s with
        | some lt => rw [hlex] at he; simp [Except.map] at he
        | none => exact ⟨rfl, rfl⟩
    · rintro ⟨htab, hlex⟩
      exact ⟨⟨s⟩, by simp [Triple.new, TripleInner.new, htab, hlex, Except.map]⟩

/-- Witness for C8: with a one-entry table, a hit returns the builtin form;
with an empty grammar, a string absent from the table fails to parse. -/
theorem c8_witness :
    Triple.new [⟨"t1"⟩] (fun _ => none) "t1" = .ok ⟨.Builtin ⟨"t1"⟩⟩ ∧
    (∃ e, Triple.new [⟨"t1"⟩] (fun _ => none) "zz" = .error e) :=
  ⟨(c8_parse_table_first_then_grammar [⟨"t1"⟩] (fun _ => none) "t1").1
      ⟨"t1"⟩ (by decide),
    (c8_parse_table_first_then_grammar [⟨"t1"⟩] (fun _ => none) "zz").2.2.2
      ⟨by decide, rfl⟩⟩

/-- C9: whenever parsing succeeds, `as_str` of the result equals the input
string — on the builtin path because the table lookup only hits on an exact
`triple` match, on the lexicon path because the input string is stored — and
`Triple::new` and the `FromStr` path agree on every input. -/
theorem c9_parse_preserves_input_string (table : List TargetInfo)
    (lex : String → Option LexiconTriple) (s : String) (t : Triple) :
    (Triple.new table lex s = .ok t → t.as_str = s) ∧
    (Triple.from_str table lex s = .ok t → t.as_str = s) ∧
    Triple.new table lex s = Triple.from_str table lex s := by
  have hsame : Triple.new table lex s = Triple.from_str table lex s := rfl
  exact ⟨Triple.as_str_new, by rw [← hsame]; exact Triple.as_str_new, hsame⟩

/-- Witness for C9: a concrete successful parse returns a triple whose
`as_str` is the input string. -/
theorem c9_witness :
    Triple.as_str ⟨.Builtin ⟨"t1"⟩⟩ = "t1" :=
  (c9_parse_preserves_input_string [⟨"t1"⟩] (fun _ => none) "t1"
    ⟨.Builtin ⟨"t1"⟩⟩).1 rfl

/-- C10: `Triple::eval` depends only on the platform's triple: two platforms
sharing a triple but carrying different target-feature sets evaluate
identically against every triple. -/
theorem c10_eval_ignores_target_features (t tr : Triple)
    (f1 f2 : List String) :
    Triple.eval t ⟨tr, f1⟩ = Triple.eval t ⟨tr, f2⟩ :=
  rfl

/-! ## PackageGraph (src/graph.rs)

`cargo_metadata` input types, restricted to the fields the embedded code
reads. A `PackageId` is an opaque string key. -/

/-- `cargo_metadata::NodeDep`: one resolved dependency of a resolve node. -/
structure NodeDep where
  name : String
  pkg : String
  deriving DecidableEq, Repr

/-- One entry of `cargo_metadata::Resolve::nodes`. -/
structure ResolveNode where
  id : String
  deps : List NodeDep
  features : List String
  deriving DecidableEq, Repr

/-- `cargo_metadata::Resolve`. -/
structure Resolve where
  nodes : List ResolveNode
  deriving DecidableEq, Repr

/-- `cargo_metadata::Package`, restricted to the fields the embedded code
reads (only `id` is consulted; the record is stored whole). -/
structure Package where
  id : String
  name : String
  version : String
  deriving DecidableEq, Repr

/-- `cargo_metadata::Metadata`, restricted to the fields the embedded code
reads. -/
structure Metadata where
  packages : List Package
  workspace_members : List String
  resolve : Option Resolve
  deriving DecidableEq, Repr

/-- The `Error` variants constructed by `src/graph.rs`. -/
inductive Error where
  | DepGraphError (msg : String)
  | CommandError (msg : String)
  deriving DecidableEq, Repr

/-- `std::collections::HashMap` lookup, modelled on an association list whose
key uniqueness is maintained by `hmInsert`/`hmErase`. -/
def hmLookup {α : Type} (k : String) : List (String × α) → Option α
  | [] => none
  | p :: m => if p.1 = k then some p.2 else hmLookup k m

/-- `HashMap::remove`'s effect on the map: drop the key's binding. -/
def hmErase {α : Type} (k : String) : List (String × α) → List (String × α)
  | [] => []
  | p :: m => if p.1 = k then hmErase k m else p :: hmErase k m

/-- `HashMap` insert: replaces any existing binding of the key. -/
def hmInsert {α : Type} (k : String) (v : α) (m : List (String × α)) :
    List (String × α) :=
  (k, v) :: hmErase k m

/-- The resolve-data map: package id → (deps, features), built by collecting
`resolve.nodes` into a `HashMap` (later entries overwrite earlier ones). -/
def collectResolveData (nodes : List ResolveNode) :
    List (String × (List NodeDep × List String)) :=
  nodes.foldl (fun m node => hmInsert node.id (node.deps, node.features) m) []

/-- `petgraph::Graph<PackageId, ()>`: node arena plus edge list. `add_node`
appends and returns the fresh index. -/
structure PetGraph where
  nodes : List String
  edges : List (Nat × Nat)
  deriving DecidableEq, Repr

/-- `Graph::add_node`. -/
def PetGraph.add_node (g : PetGraph) (w : String) : PetGraph × Nat :=
  ({ g with nodes := g.nodes ++ [w] }, g.nodes.length)

/-- `PackageData` (src/graph.rs). -/
structure PackageData where
  node_idx : Nat
  in_workspace : Bool
  package : Package
  resolved_deps : List NodeDep
  resolved_features : List String
  deriving DecidableEq, Repr

/-- `PackageGraph` (src/graph.rs): only the packages map survives
construction; the petgraph value is a local that is dropped. -/
structure PackageGraph where
  packages : List (String × PackageData)
  deriving DecidableEq, Repr

/-- The first pass of `PackageGraph::new`: for each package in order, add a
petgraph node, look up workspace membership, and `remove` the package's entry
from the mutable resolve-data map, failing on the first package without one
(`collect::<Result<..>>` short-circuits at the first error). -/
def buildPackages (workspace_members : List String) :
    List Package → List (String × (List NodeDep × List String)) → PetGraph →
      Except Error (PetGraph × List (String × PackageData))
  | [], _, g => .ok (g, [])
  | package :: rest, resolve_data, g =>
    let added := g.add_node package.id
    let in_workspace := workspace_members.contains package.id
    match hmLookup package.id resolve_data with
    | none =>
      .error (.DepGraphError
        ("no resolve data found for package '" ++ package.id ++ "'"))
    | some (resolved_deps, resolved_features) =>
      match buildPackages workspace_members rest
          (hmErase package.id resolve_data) added.1 with
      | .error e => .error e
      | .ok (g', tail) =>
        .ok (g', (package.id,
          ⟨added.2, in_workspace, package, resolved_deps, resolved_features⟩)
            :: tail)

/-- The body of `PackageGraph::new` through the edge-linking loop, keeping
the local petgraph value visible: the resolve table is mandatory, the first
pass builds nodes and takes each package's resolve data, and the second loop
(`for (id, data) in &packages`) has an empty body (a TODO in the source), so
it returns the petgraph unchanged. -/
def constructAux (metadata : Metadata) :
    Except Error (PetGraph × List (String × PackageData)) :=
  match metadata.resolve with
  | none =>
    .error (.DepGraphError
      "no 'resolve' entries found: ensure you don't have no_deps set")
  | some resolve =>
    let resolve_data := collectResolveData resolve.nodes
    match buildPackages metadata.workspace_members metadata.packages
        resolve_data ⟨[], []⟩ with
    | .error e => .error e
    | .ok (graph, packages) =>
      .ok (packages.foldl (fun g _ => g) graph, packages)

/-- `PackageGraph::new`: the petgraph local is dropped; only the packages map
is returned. -/
def PackageGraph.new (metadata : Metadata) : Except Error PackageGraph :=
  match constructAux metadata with
  | .error e => .error e
  | .ok (_, packages) => .ok ⟨packages⟩

/-! ## HashMap model lemmas -/

theorem hmLookup_hmErase_self {α : Type} (k : String)
    (m : List (String × α)) : hmLookup k (hmErase k m) = none := by
  induction m with
  | nil => rfl
  | cons p m ih =>
    by_cases hp : p.1 = k
    · simpa [hmErase, hp] using ih
    · simpa [hmErase, hmLookup, hp] using ih

theorem hmLookup_hmErase_ne {α : Type} {k k' : String} (h : k' ≠ k)
    (m : List (String × α)) : hmLookup k' (hmErase k m) = hmLookup k' m := by
  induction m with
  | nil => rfl
  | cons p m ih =>
    by_cases hp : p.1 = k
    · have hp' : p.1 ≠ k' := fun e => h (e.symm.trans hp)
      simp only [hmErase, if_pos hp]
      rw [ih]
      simp [hmLookup, hp']
    · simp [hmErase, hmLookup, hp, ih]

theorem hmLookup_hmInsert {α : Type} (k k' : String) (v : α)
    (m : List (String × α)) :
    hmLookup k' (hmInsert k v m) =
      if k = k' then some v else hmLookup k' m := by
  by_cases h : k = k'
  · simp [hmInsert, hmLookup, h]
  · simp only [hmInsert, hmLookup, if_neg h]
    exact hmLookup_hmErase_ne (fun e => h e.symm) m

/-- Lookup in the collected resolve map misses exactly for ids outside the
resolve node list. -/
theorem hmLookup_collectResolveData (k : String) (nodes : List ResolveNode) :
    hmLookup k (collectResolveData nodes) = none ↔
      k ∉ nodes.map ResolveNode.id := by
  suffices h : ∀ (m : List (String × (List NodeDep × List String))),
      hmLookup k (nodes.foldl
        (fun m node => hmInsert node.id (node.deps, node.features) m) m) =
        none ↔ (k ∉ nodes.map ResolveNode.id ∧ hmLookup k m = none) by
    rw [collectResolveData, h]
    simp [hmLookup]
  induction nodes with
  | nil => simp
  | cons node rest ih =>
    intro m
    simp only [List.foldl_cons, List.map_cons, List.mem_cons]
    rw [ih]
    rw [hmLookup_hmInsert]
    by_cases h : node.id = k
    · simp [h]
    · simp only [if_neg h]
      constructor
      · rintro ⟨h1, h2⟩
        exact ⟨fun hc => hc.elim (fun e => h e.symm) h1, h2⟩
      · rintro ⟨h1, h2⟩
        exact ⟨fun hc => h1 (Or.inr hc), h2⟩

/-! ## Construction lemmas -/

/-- If some remaining package's id has no binding in the resolve-data map,
the first pass fails (with a `DepGraphError`). -/
theorem buildPackages_missing_err (wm : List String) :
    ∀ (l : List Package) (rd : List (String × (List NodeDep × List String)))
      (g : PetGraph), (∃ p ∈ l, hmLookup p.id rd = none) →
      ∃ msg, buildPackages wm l rd g = .error (.DepGraphError msg) := by
  intro l
  induction l with
  | nil => rintro rd g ⟨p, hp, -⟩; exact absurd hp (List.not_mem_nil p)
  | cons a rest ih =>
    rintro rd g ⟨p, hp, hnone⟩
    rcases List.mem_cons.mp hp with rfl | hmem
    · exact ⟨_, by rw [buildPackages, hnone]⟩
    · cases ha : hmLookup a.id rd with
      | none => exact ⟨_, by rw [buildPackages, ha]⟩
      | some v =>
        obtain ⟨deps, feats⟩ := v
        have hnone' : hmLookup p.id (hmErase a.id rd) = none := by
          by_cases hpa : p.id = a.id
          · rw [hpa]; exact hmLookup_hmErase_self _ _
          · rw [hmLookup_hmErase_ne hpa]; exact hnone
        obtain ⟨msg, hmsg⟩ := ih (hmErase a.id rd) (g.add_node a.id).1
          ⟨p, hmem, hnone'⟩
        refine ⟨msg, ?_⟩
        rw [buildPackages, ha]
        simp only [hmsg]

/-- With pairwise-distinct package ids, a package whose id has no binding in
the resolve-data map makes the first pass fail with the error that names a
(genuinely unresolved) package. -/
theorem buildPackages_missing_named (wm : List String) :
    ∀ (l : List Package) (rd : List (String × (List NodeDep × List String)))
      (g : PetGraph), (l.map Package.id).Nodup →
      (∃ p ∈ l, hmLookup p.id rd = none) →
      ∃ q ∈ l, hmLookup q.id rd = none ∧
        buildPackages wm l rd g = .error (.DepGraphError
          ("no resolve data found for package '" ++ q.id ++ "'")) := by
  intro l
  induction l with
  | nil => rintro rd g - ⟨p, hp, -⟩; exact absurd hp (List.not_mem_nil p)
  | cons a rest ih =>
    rintro rd g hnodup ⟨p, hp, hnone⟩
    rw [List.map_cons, List.nodup_cons] at hnodup
    cases ha : hmLookup a.id rd with
    | none =>
      exact ⟨a, List.mem_cons_self a rest, ha, by rw [buildPackages, ha]⟩
    | some v =>
      obtain ⟨deps, feats⟩ := v
      have hpmem : p ∈ rest := by
        rcases List.mem_cons.mp hp with rfl | hmem
        · rw [ha] at hnone; exact absurd hnone (by simp)
        · exact hmem
      have hpa : p.id ≠ a.id := fun e =>
        hnodup.1 (e ▸ List.mem_map_of_mem Package.id hpmem)
      have hnone' : hmLookup p.id (hmErase a.id rd) = none := by
        rw [hmLookup_hmErase_ne hpa]; exact hnone
      obtain ⟨q, hqmem, hqnone, hq⟩ := ih (hmErase a.id rd)
        (g.add_node a.id).1 hnodup.2 ⟨p, hpmem, hnone'⟩
      have hqa : q.id ≠ a.id := fun e =>
        hnodup.1 (e ▸ List.mem_map_of_mem Package.id hqmem)
      refine ⟨q, List.mem_cons_of_mem a hqmem, ?_, ?_⟩
      · rw [hmLookup_hmErase_ne hqa] at hqnone; exact hqnone
      · rw [buildPackages, ha]
        simp only [hq]

/-- Duplicate package ids always make the first pass fail: the first
occurrence removes the shared id's resolve entry, so the second occurrence
finds none. -/
theorem buildPackages_dup_err (wm : List String) :
    ∀ (l : List Package) (rd : List (String × (List NodeDep × List String)))
      (g : PetGraph), ¬ (l.map Package.id).Nodup →
      ∃ msg, buildPackages wm l rd g = .error (.DepGraphError msg) := by
  intro l
  induction l with
  | nil => intro rd g h; simp at h
  | cons a rest ih =>
    intro rd g hdup
    rw [List.map_cons, List.nodup_cons] at hdup
    push_neg at hdup
    cases ha : hmLookup a.id rd with
    | none => exact ⟨_, by rw [buildPackages, ha]⟩
    | some v =>
      obtain ⟨deps, feats⟩ := v
      by_cases hmem : a.id ∈ rest.map Package.id
      · obtain ⟨p, hpmem, hpid⟩ := List.mem_map.mp hmem
        have hnone' : hmLookup p.id (hmErase a.id rd) = none := by
          rw [hpid]; exact hmLookup_hmErase_self _ _
        obtain ⟨msg, hmsg⟩ := buildPackages_missing_err wm rest
          (hmErase a.id rd) (g.add_node a.id).1 ⟨p, hpmem, hnone'⟩
        refine ⟨msg, ?_⟩
        rw [buildPackages, ha]
        simp only [hmsg]
      · obtain ⟨msg, hmsg⟩ := ih (hmErase a.id rd) (g.add_node a.id).1
          (hdup hmem)
        refine ⟨msg, ?_⟩
        rw [buildPackages, ha]
        simp only [hmsg]

/-! ## Concrete metadata fixtures -/

/-- Two packages sharing the id `"a"`, with a resolve entry for `"a"`. -/
def dupMetadata : Metadata :=
  { packages := [⟨"a", "a", "1.0.0"⟩, ⟨"a", "a", "1.0.0"⟩],
    workspace_members := ["a"],
    resolve := some ⟨[⟨"a", [], []⟩]⟩ }

/-- One package `"a"` whose resolve entry is missing (empty resolve table). -/
def missingMetadata : Metadata :=
  { packages := [⟨"a", "a", "1.0.0"⟩],
    workspace_members := ["a"],
    resolve := some ⟨[]⟩ }

/-- One package `"zzz"` and no resolve table at all. -/
def noResolveMetadata : Metadata :=
  { packages := [⟨"zzz", "zzz", "1.0.0"⟩],
    workspace_members := ["zzz"],
    resolve := none }

/-- Packages `"a"` and `"b"` where the resolve data records one dependency
edge (`a` depends on `b`). -/
def edgeMetadata : Metadata :=
  { packages := [⟨"a", "a", "1.0.0"⟩, ⟨"b", "b", "0.1.0"⟩],
    workspace_members := ["a"],
    resolve := some ⟨[⟨"a", [⟨"b", "b"⟩], []⟩, ⟨"b", [], []⟩]⟩ }

/-! ## Claim theorems: graph construction -/

/-- Counterexample to C1: on duplicate-id input the construction error is the
missing-resolve-data message — byte-for-byte the same error produced for a
package that genuinely lacks resolve data — not a duplicate-package-id
error. -/
theorem c1_counterexample :
    PackageGraph.new dupMetadata =
      .error (.DepGraphError "no resolve data found for package 'a'") ∧
    PackageGraph.new missingMetadata =
      .error (.DepGraphError "no resolve data found for package 'a'") :=
  ⟨rfl, rfl⟩

/-- C1 (amended): whenever two packages share a package id, construction
fails with a `DepGraphError` rather than returning a graph; the error is the
generic missing-resolve-data message (the duplicate consumed the shared
resolve entry), not a dedicated duplicate-package-id error. -/
theorem c1_duplicate_id_fails (m : Metadata)
    (hdup : ¬ (m.packages.map Package.id).Nodup) :
    ∃ msg, PackageGraph.new m = .error (.DepGraphError msg) := by
  cases hres : m.resolve with
  | none =>
    exact ⟨_, by rw [PackageGraph.new, constructAux, hres]⟩
  | some resolve =>
    obtain ⟨msg, hmsg⟩ := buildPackages_dup_err m.workspace_members
      m.packages (collectResolveData resolve.nodes) ⟨[], []⟩ hdup
    refine ⟨msg, ?_⟩
    rw [PackageGraph.new, constructAux, hres]
    simp only [hmsg]

/-- Witness for C1: the amended theorem applied to the duplicate-id
fixture. -/
theorem c1_witness :
    ∃ msg, PackageGraph.new dupMetadata = .error (.DepGraphError msg) :=
  c1_duplicate_id_fails dupMetadata (by decide)

/-- C2 (code bug evidence): on a metadata input whose resolve data records
exactly one dependency edge, construction succeeds but the edge-linking pass
(an empty TODO loop in the source) leaves the petgraph edge list empty, and
the petgraph value is then dropped from the returned `PackageGraph`. -/
theorem c2_linking_pass_adds_no_edges :
    (constructAux edgeMetadata).map (fun x => x.1.edges) = .ok [] ∧
    (edgeMetadata.resolve.map fun r =>
      (r.nodes.map fun n => n.deps.length).sum) = some 1 :=
  ⟨rfl, rfl⟩

/-- Counterexample to C3: with the resolve table absent entirely, the error
is the fixed no-resolve-entries message, which does not name (or even
mention) the offending package `"zzz"`. -/
theorem c3_counterexample :
    PackageGraph.new noResolveMetadata =
      .error (.DepGraphError
        "no 'resolve' entries found: ensure you don't have no_deps set") ∧
    (∀ p ∈ noResolveMetadata.packages,
      "no 'resolve' entries found: ensure you don't have no_deps set" ≠
        "no resolve data found for package '" ++ p.id ++ "'") ∧
    ¬ "zzz".data <:+:
      "no 'resolve' entries found: ensure you don't have no_deps set".data :=
  ⟨rfl, by decide, by decide⟩

/-- C3 (amended): if the resolve table is absent, construction fails with the
general no-resolve-entries error, which names no package; if the table is
present (and package ids are distinct) but some package lacks an entry,
construction fails with the missing-resolve-data error naming an offending
package. In both cases no graph is returned. -/
theorem c3_missing_resolve_data_fails (m : Metadata) :
    (m.resolve = none →
      PackageGraph.new m = .error (.DepGraphError
        "no 'resolve' entries found: ensure you don't have no_deps set")) ∧
    (∀ r, m.resolve = some r → (m.packages.map Package.id).Nodup →
      ∀ p ∈ m.packages, p.id ∉ r.nodes.map ResolveNode.id →
      ∃ q ∈ m.packages, q.id ∉ r.nodes.map ResolveNode.id ∧
        PackageGraph.new m = .error (.DepGraphError
          ("no resolve data found for package '" ++ q.id ++ "'"))) := by
  constructor
  · intro hres
    rw [PackageGraph.new, constructAux, hres]
  · intro r hres hnodup p hp hmiss
    have hnone : hmLookup p.id (collectResolveData r.nodes) = none :=
      (hmLookup_collectResolveData p.id r.nodes).mpr hmiss
    obtain ⟨q, hqmem, hqnone, hq⟩ := buildPackages_missing_named
      m.workspace_members m.packages (collectResolveData r.nodes) ⟨[], []⟩
      hnodup ⟨p, hp, hnone⟩
    refine ⟨q, hqmem, (hmLookup_collectResolveData q.id r.nodes).mp hqnone, ?_⟩
    rw [PackageGraph.new, constructAux, hres]
    simp only [hq]

/-- Witness for C3: both branches of the amended theorem applied to concrete
fixtures. -/
theorem c3_witness :
    PackageGraph.new noResolveMetadata =
      .error (.DepGraphError
        "no 'resolve' entries found: ensure you don't have no_deps set") ∧
    ∃ q ∈ missingMetadata.packages,
      q.id ∉ ([] : List ResolveNode).map ResolveNode.id ∧
        PackageGraph.new missingMetadata = .error (.DepGraphError
          ("no resolve data found for package '" ++ q.id ++ "'")) :=
  ⟨(c3_missing_resolve_data_fails noResolveMetadata).1 rfl,
    (c3_missing_resolve_data_fails missingMetadata).2 ⟨[]⟩ rfl (by decide)
      ⟨"a", "a", "1.0.0"⟩ (by decide) (by decide)⟩

/-! ## Hakari feature-unification builder

The hakari crate's implementation is not among the embedded sources (only its
property-test helpers are), so the builder is modelled from the
specification. -/

/-- Modelled from the spec: the resolver-version mode selector (glossary:
"a mode selector affecting how features are merged across normal/build/dev
dependency edges"). -/
inductive CargoResolverVersion where
  | V1
  | V2
  deriving DecidableEq, Repr

/-- Modelled from the spec: the unify-target-host policy, "independent |
unified". -/
inductive UnifyTargetHost where
  | independent
  | unified
  deriving DecidableEq, Repr

/-- Modelled from the spec: the builder's configuration-validation and
summary error taxonomy (section 4.3 / 7), each carrying the offending id. -/
inductive HakariError where
  | UnknownAggregationTarget (id : String)
  | NotWorkspaceMember (id : String)
  | InvalidOmittedPackage (id : String)
  | UnknownPackageId (id : String)
  | PlatformParseError (triple_str : String)
  deriving DecidableEq, Repr

/-- Modelled from the spec: the view of the package graph the builder needs —
the known package ids and the workspace-member subset. -/
structure HGraph where
  ids : List String
  workspace : List String
  deriving DecidableEq, Repr

/-- Modelled from the spec: the `HakariBuilder` configuration state — the
optional aggregation (hakari) package, the platform list, the
resolver-version mode, the verify-mode flag, the omitted-package set and the
two unification-policy flags. -/
structure HakariBuilder where
  hakari_id : Option String
  platforms : List Triple
  resolver_version : CargoResolverVersion
  verify_mode : Bool
  omitted : Finset String
  unify_target_host : UnifyTargetHost
  unify_all : Bool
  deriving DecidableEq

/-- Modelled from the spec: `HakariBuilder::new` — validates that a
designated aggregation package exists in the graph
(`UnknownAggregationTarget`) and is a workspace member
(`NotWorkspaceMember`), then returns the default configuration. -/
def HakariBuilder.new (g : HGraph) (hakari_id : Option String) :
    Except HakariError HakariBuilder :=
  match hakari_id with
  | none => .ok ⟨none, [], .V1, false, ∅, .unified, false⟩
  | some h =>
    if g.ids.contains h = false then .error (.UnknownAggregationTarget h)
    else if g.workspace.contains h = false then .error (.NotWorkspaceMember h)
    else .ok ⟨some h, [], .V1, false, ∅, .unified, false⟩

/-- Fluent setter, as in the builder's configuration interface. -/
def HakariBuilder.set_platforms (b : HakariBuilder) (platforms : List Triple) :
    HakariBuilder :=
  { b with platforms }

/-- Fluent setter. -/
def HakariBuilder.set_resolver_version (b : HakariBuilder)
    (resolver_version : CargoResolverVersion) : HakariBuilder :=
  { b with resolver_version }

/-- Fluent setter. -/
def HakariBuilder.set_verify_mode (b : HakariBuilder) (verify_mode : Bool) :
    HakariBuilder :=
  { b with verify_mode }

/-- Fluent setter. -/
def HakariBuilder.set_unify_target_host (b : HakariBuilder)
    (unify_target_host : UnifyTargetHost) : HakariBuilder :=
  { b with unify_target_host }

/-- Fluent setter. -/
def HakariBuilder.set_unify_all (b : HakariBuilder) (unify_all : Bool) :
    HakariBuilder :=
  { b with unify_all }

/-- Modelled from the spec: `HakariBuilder::add_omitted_packages` — every
omitted id must name a package present in the graph and must be a workspace
member, else the operation fails (`InvalidOmittedPackage`, naming the
offending id); validation happens at insertion time. -/
def HakariBuilder.add_omitted_packages (g : HGraph) (b : HakariBuilder)
    (ids : List String) : Except HakariError HakariBuilder :=
  match ids.find?
      (fun id => !(g.ids.contains id && g.workspace.contains id)) with
  | some bad => .error (.InvalidOmittedPackage bad)
  | none => .ok { b with omitted := b.omitted ∪ ids.toFinset }

/-- Modelled from the spec: the enumerated omitted set — the configured
omitted packages, plus the aggregation package itself when verify mode is
disabled (section 4.3 step 4). -/
def HakariBuilder.omitted_packages (b : HakariBuilder) : Finset String :=
  if b.verify_mode then b.omitted
  else
    match b.hakari_id with
    | some h => insert h b.omitted
    | none => b.omitted

/-- Modelled from the spec: `HakariBuilder::omits_package` — fails on an id
unknown to the graph, and otherwise reports whether the id is omitted: either
configured as omitted, or equal to the aggregation package while verify mode
is disabled. -/
def HakariBuilder.omits_package (g : HGraph) (b : HakariBuilder)
    (id : String) : Except HakariError Bool :=
  if g.ids.contains id then
    .ok (decide (id ∈ b.omitted) ||
      (!b.verify_mode && b.hakari_id == some id))
  else .error (.UnknownPackageId id)

/-- Modelled from the spec: the builder summary — a flat, order-independent
structural form holding the aggregation id, the platform strings, the policy
flags and the omitted-id set. -/
structure HakariBuilderSummary where
  hakari_id : Option String
  platforms : List String
  resolver_version : CargoResolverVersion
  verify_mode : Bool
  omitted : Finset String
  unify_target_host : UnifyTargetHost
  unify_all : Bool
  deriving DecidableEq

/-- Modelled from the spec: `HakariBuilder::to_summary` — each platform is
recorded by its canonical string. -/
def HakariBuilder.to_summary (b : HakariBuilder) : HakariBuilderSummary :=
  ⟨b.hakari_id, b.platforms.map Triple.as_str, b.resolver_version,
    b.verify_mode, b.omitted, b.unify_target_host, b.unify_all⟩

/-- Parse a list of platform strings back into triples, failing on the first
string neither the builtin table nor the grammar accepts. -/
def parsePlatforms (table : List TargetInfo)
    (lex : String → Option LexiconTriple) :
    List String → Except HakariError (List Triple)
  | [] => .ok []
  | s :: rest =>
    match Triple.new table lex s with
    | .error e => .error (.PlatformParseError e.triple_str)
    | .ok t =>
      match parsePlatforms table lex rest with
      | .error e => .error e
      | .ok ts => .ok (t :: ts)

/-- Modelled from the spec: `HakariBuilderSummary::to_hakari_builder` —
re-parses the platform strings and re-validates the aggregation target and
the omitted set against the graph, reconstructing the builder. -/
def HakariBuilderSummary.to_hakari_builder (table : List TargetInfo)
    (lex : String → Option LexiconTriple) (g : HGraph)
    (s : HakariBuilderSummary) : Except HakariError HakariBuilder :=
  match parsePlatforms table lex s.platforms with
  | .error e => .error e
  | .ok platforms =>
    match HakariBuilder.new g s.hakari_id with
    | .error e => .error e
    | .ok b =>
      HakariBuilder.add_omitted_packages g
        ((((b.set_platforms platforms).set_resolver_version
            s.resolver_version).set_verify_mode
            s.verify_mode).set_unify_target_host
            s.unify_target_host |>.set_unify_all s.unify_all)
        (s.omitted.sort (· ≤ ·))

/-! ## Claim theorems: hakari builder -/

/-- Parsing the canonical strings of a list of parseable triples succeeds and
reproduces the same canonical strings. -/
theorem parsePlatforms_map_as_str (table : List TargetInfo)
    (lex : String → Option LexiconTriple) :
    ∀ l : List String, (∀ s ∈ l, ∃ t, Triple.new table lex s = .ok t) →
      ∃ ts, parsePlatforms table lex l = .ok ts ∧ ts.map Triple.as_str = l := by
  intro l
  induction l with
  | nil => exact fun _ => ⟨[], rfl, rfl⟩
  | cons s rest ih =>
    intro hall
    obtain ⟨t, ht⟩ := hall s (List.mem_cons_self s rest)
    obtain ⟨ts, hts, hmap⟩ := ih fun x hx =>
      hall x (List.mem_cons_of_mem s hx)
    refine ⟨t :: ts, ?_, ?_⟩
    · rw [parsePlatforms, ht]
      simp only [hts]
    · rw [List.map_cons, hmap, Triple.as_str_new ht]

/-- C4 (spec-modelled): for every graph and valid builder configuration,
summary → builder → summary reproduces the first summary. -/
theorem c4_builder_summary_roundtrip (table : List TargetInfo)
    (lex : String → Option LexiconTriple) (g : HGraph) (b : HakariBuilder)
    (hhak : ∀ h, b.hakari_id = some h →
      g.ids.contains h = true ∧ g.workspace.contains h = true)
    (homit : ∀ id ∈ b.omitted,
      g.ids.contains id = true ∧ g.workspace.contains id = true)
    (hplat : ∀ t ∈ b.platforms, ∃ t', Triple.new table lex t.as_str = .ok t') :
    ∃ b', HakariBuilderSummary.to_hakari_builder table lex g b.to_summary =
        .ok b' ∧ b'.to_summary = b.to_summary := by
  obtain ⟨ts, hts, hmap⟩ := parsePlatforms_map_as_str table lex
    (b.platforms.map Triple.as_str) (by
      intro s hs
      obtain ⟨t, htmem, rfl⟩ := List.mem_map.mp hs
      exact hplat t htmem)
  have hnew : ∃ b0, HakariBuilder.new g b.hakari_id = .ok b0 ∧
      b0 = ⟨b.hakari_id, [], .V1, false, ∅, .unified, false⟩ := by
    cases hb : b.hakari_id with
    | none => exact ⟨_, rfl, rfl⟩
    | some h =>
      obtain ⟨h1, h2⟩ := hhak h hb
      refine ⟨_, ?_, rfl⟩
      rw [HakariBuilder.new]
      have h1' : h ∈ g.ids := by simpa using h1
      have h2' : h ∈ g.workspace := by simpa using h2
      simp [h1', h2']
  obtain ⟨b0, hb0, hb0eq⟩ := hnew
  have hfind : (b.omitted.sort (· ≤ ·)).find?
      (fun id => !(g.ids.contains id && g.workspace.contains id)) = none := by
    rw [List.find?_eq_none]
    intro id hid
    obtain ⟨h1, h2⟩ := homit id (Finset.mem_sort (· ≤ ·) |>.mp hid)
    have h1' : id ∈ g.ids := by simpa using h1
    have h2' : id ∈ g.workspace := by simpa using h2
    simp [h1', h2']
  subst hb0eq
  have heq : HakariBuilderSummary.to_hakari_builder table lex g b.to_summary =
      .ok ⟨b.hakari_id, ts, b.resolver_version, b.verify_mode,
        ∅ ∪ (b.omitted.sort (· ≤ ·)).toFinset, b.unify_target_host,
        b.unify_all⟩ := by
    rw [HakariBuilderSummary.to_hakari_builder]
    simp only [HakariBuilder.to_summary, hts, hb0,
      HakariBuilder.add_omitted_packages, hfind, HakariBuilder.set_platforms,
      HakariBuilder.set_resolver_version, HakariBuilder.set_verify_mode,
      HakariBuilder.set_unify_target_host, HakariBuilder.set_unify_all]
  refine ⟨_, heq, ?_⟩
  simp only [HakariBuilder.to_summary, hmap]
  rw [Finset.empty_union, Finset.sort_toFinset]

/-- Witness for C4: a concrete valid builder round-trips through its
summary. -/
theorem c4_witness :
    ∃ b', HakariBuilderSummary.to_hakari_builder [⟨"t1"⟩] (fun _ => none)
        ⟨["w", "x"], ["w"]⟩
        (HakariBuilder.to_summary
          ⟨some "w", [⟨.Builtin ⟨"t1"⟩⟩], .V2, false, {"w"}, .independent,
            true⟩) = .ok b' ∧
      b'.to_summary = HakariBuilder.to_summary
        ⟨some "w", [⟨.Builtin ⟨"t1"⟩⟩], .V2, false, {"w"}, .independent,
          true⟩ :=
  c4_builder_summary_roundtrip [⟨"t1"⟩] (fun _ => none) ⟨["w", "x"], ["w"]⟩
    ⟨some "w", [⟨.Builtin ⟨"t1"⟩⟩], .V2, false, {"w"}, .independent, true⟩
    (by intro h he; cases he; exact ⟨rfl, rfl⟩)
    (by decide)
    (by
      intro t ht
      rw [List.mem_singleton] at ht
      subst ht
      exact ⟨⟨.Builtin ⟨"t1"⟩⟩, rfl⟩)

/-- C5 (spec-modelled): adding an omitted id that does not name a package in
the graph, or names one outside the workspace, makes the insertion fail with
`InvalidOmittedPackage` naming an invalid id. -/
theorem c5_omitted_insertion_validated (g : HGraph) (b : HakariBuilder)
    (ids : List String) (id : String) (hid : id ∈ ids)
    (hbad : ¬ (g.ids.contains id = true ∧ g.workspace.contains id = true)) :
    ∃ bad, HakariBuilder.add_omitted_packages g b ids =
      .error (.InvalidOmittedPackage bad) ∧
      ¬ (g.ids.contains bad = true ∧ g.workspace.contains bad = true) := by
  have hsome : (ids.find?
      (fun x => !(g.ids.contains x && g.workspace.contains x))).isSome := by
    rw [List.find?_isSome]
    refine ⟨id, hid, ?_⟩
    cases h1 : g.ids.contains id with
    | false => simp [h1]
    | true =>
      cases h2 : g.workspace.contains id with
      | false => simp [h1, h2]
      | true => exact absurd ⟨h1, h2⟩ hbad
  obtain ⟨bad, hbadeq⟩ := Option.isSome_iff_exists.mp hsome
  have hpred := List.find?_some hbadeq
  refine ⟨bad, ?_, ?_⟩
  · rw [HakariBuilder.add_omitted_packages, hbadeq]
  · rintro ⟨h1, h2⟩
    rw [h1, h2] at hpred
    simp at hpred

/-- Witness for C5: inserting a known non-workspace package id is
rejected. -/
theorem c5_witness :
    ∃ bad, HakariBuilder.add_omitted_packages ⟨["w", "n"], ["w"]⟩
      ⟨none, [], .V1, false, ∅, .unified, false⟩ ["n"] =
        .error (.InvalidOmittedPackage bad) ∧
      ¬ ((["w", "n"] : List String).contains bad = true ∧
        (["w"] : List String).contains bad = true) :=
  c5_omitted_insertion_validated ⟨["w", "n"], ["w"]⟩
    ⟨none, [], .V1, false, ∅, .unified, false⟩ ["n"] "n"
    (by decide) (by decide)

/-- C6 (spec-modelled): for every id known to the graph, `omits_package`
agrees with membership in the `omitted_packages` enumeration; and whenever
verify mode is disabled and an aggregation package is set, that package is
reported as omitted. -/
theorem c6_omission_consistency (g : HGraph) (b : HakariBuilder) (id : String)
    (hknown : g.ids.contains id = true) :
    HakariBuilder.omits_package g b id =
      .ok (decide (id ∈ b.omitted_packages)) ∧
    (b.verify_mode = false → ∀ h, b.hakari_id = some h →
      g.ids.contains h = true →
      HakariBuilder.omits_package g b h = .ok true) := by
  have hmain : ∀ x : String, g.ids.contains x = true →
      HakariBuilder.omits_package g b x =
        .ok (decide (x ∈ b.omitted_packages)) := by
    intro x hx
    rw [HakariBuilder.omits_package, if_pos hx]
    congr 1
    rw [HakariBuilder.omitted_packages]
    cases hv : b.verify_mode with
    | true => simp
    | false =>
      cases hh : b.hakari_id with
      | none => simp
      | some h =>
        simp only [Bool.not_false, Bool.true_and, Bool.false_eq_true,
          if_false]
        by_cases hxh : x ∈ b.omitted
        · simp [hxh, Finset.mem_insert]
        · by_cases hhx : h = x
          · subst hhx
            simp [hxh, Finset.mem_insert]
          · have hxh2 : ¬x = h := fun e => hhx e.symm
            have e1 : (some h == some x) = false := by simp [hhx]
            have e2 : decide (x ∈ b.omitted) = false := decide_eq_false hxh
            have e3 : decide (x ∈ insert h b.omitted) = false :=
              decide_eq_false (by
                rw [Finset.mem_insert]
                rintro (e | e)
                · exact hxh2 e
                · exact hxh e)
            rw [e1, e2, e3]
            rfl
  refine ⟨hmain id hknown, ?_⟩
  intro hv h hh hhknown
  rw [hmain h hhknown]
  congr 1
  rw [HakariBuilder.omitted_packages, hv, hh]
  simp [Finset.mem_insert]

/-- Witness for C6: a concrete builder with verify mode off and aggregation
package `"w"`: `omits_package` matches the enumeration on `"m"`, and reports
`"w"` as omitted. -/
theorem c6_witness :
    HakariBuilder.omits_package ⟨["w", "n", "m"], ["w"]⟩
      ⟨some "w", [], .V1, false, {"n"}, .unified, false⟩ "m" =
      .ok (decide ("m" ∈ HakariBuilder.omitted_packages
        ⟨some "w", [], .V1, false, {"n"}, .unified, false⟩)) ∧
    HakariBuilder.omits_package ⟨["w", "n", "m"], ["w"]⟩
      ⟨some "w", [], .V1, false, {"n"}, .unified, false⟩ "w" = .ok true :=
  ⟨(c6_omission_consistency ⟨["w", "n", "m"], ["w"]⟩
      ⟨some "w", [], .V1, false, {"n"}, .unified, false⟩ "m" (by decide)).1,
    (c6_omission_consistency ⟨["w", "n", "m"], ["w"]⟩
      ⟨some "w", [], .V1, false, {"n"}, .unified, false⟩ "m" (by decide)).2
      rfl "w" rfl (by decide)⟩

end Guppy
